import Mathlib

/-!
Shallow embedding of `measure.py` (LED current measurement sweep), with
theorems checking the specification's claims against the code.

Conventions of the embedding:
* Python integers are modelled as `ℤ`, Python floats (voltages, currents,
  times) as `ℚ` (exact arithmetic; the claims are about the formulas).
* Python `//` on nonnegative integers agrees with Lean's `Int` division;
  on floats it is `⌊·⌋`; `<<`/`>>`/`&`/`|` on arbitrary-precision integers
  are `Int`'s shifts, `Int.land` and `Int.lor`.
* Generators (`__iter__`) are modelled as the finite `List` they yield.
* Fallible collaborator calls return `Except Err`; side effects
  (file opening, hardware commands, file writes) are modelled as an
  explicit event trace.
-/

namespace Measure

/-! ## `RangeInc` (integral axes: brightness, LED value)

Source, `measure.py` lines 92-111:
```
class RangeInc:
    def __init__(self, start, stop, step):
        if stop < start: raise ValueError(...)
        if float(step) <= 0.0: raise ValueError(...)
        ...
    def __iter__(self):
        value = self.start
        while (value < self.stop):
            yield value
            value += self.step
        yield self.stop
    def __len__(self):
        return int((self.stop - self.start) // self.step) + 1
```
-/

/-- An integral `RangeInc` whose constructor checks have passed
(`stop < start` and `step <= 0` each raise `ValueError`). -/
structure RangeInc where
  start : ℤ
  stop : ℤ
  step : ℤ
  stop_ge : start ≤ stop
  step_pos : 0 < step

/-- The constructor `RangeInc.__init__`: validation happens here,
mirroring the two `raise ValueError` checks in order. -/
def mkRangeInc (start stop step : ℤ) : Except String RangeInc :=
  if h1 : stop < start then
    .error "Invalid range: stop must be greater than or equal to start"
  else if h2 : step ≤ 0 then
    .error "step must be greater than 0"
  else
    .ok ⟨start, stop, step, le_of_not_lt h1, lt_of_not_le h2⟩

/-- The `while (value < self.stop): yield value; value += self.step` loop
of `RangeInc.__iter__`, as the list of yielded values. -/
def rangeIncFrom (stop step : ℤ) (hs : 0 < step) (value : ℤ) : List ℤ :=
  if _h : value < stop then value :: rangeIncFrom stop step hs (value + step) else []
termination_by (stop - value).toNat
decreasing_by simp_wf; omega

/-- `RangeInc.__iter__`: the while loop followed by the final `yield self.stop`. -/
def RangeInc.toList (r : RangeInc) : List ℤ :=
  rangeIncFrom r.stop r.step r.step_pos r.start ++ [r.stop]

/-- `RangeInc.__len__` = `int((stop - start) // step) + 1`.  Both operands of
`//` are nonnegative here, where Python floor division and `Int` division
agree. -/
def RangeInc.length (r : RangeInc) : ℤ :=
  (r.stop - r.start) / r.step + 1

/-! ## `RangeInc` over floats (the voltage axis)

The same class instantiated with Python floats, modelled over `ℚ`. -/

/-- A float `RangeInc` whose constructor checks have passed. -/
structure RangeIncQ where
  start : ℚ
  stop : ℚ
  step : ℚ
  stop_ge : start ≤ stop
  step_pos : 0 < step

/-- `RangeInc.__init__` over floats. -/
def mkRangeIncQ (start stop step : ℚ) : Except String RangeIncQ :=
  if h1 : stop < start then
    .error "Invalid range: stop must be greater than or equal to start"
  else if h2 : step ≤ 0 then
    .error "step must be greater than 0"
  else
    .ok ⟨start, stop, step, le_of_not_lt h1, lt_of_not_le h2⟩

/-- The `while (value < self.stop)` loop of `RangeInc.__iter__`, over `ℚ`. -/
def rangeIncFromQ (stop step : ℚ) (hs : 0 < step) (value : ℚ) : List ℚ :=
  if h : value < stop then value :: rangeIncFromQ stop step hs (value + step) else []
termination_by (⌈(stop - value) / step⌉).toNat
decreasing_by
  simp_wf
  have h1 : (stop - (value + step)) / step = (stop - value) / step - 1 := by
    field_simp
    ring
  rw [h1, Int.ceil_sub_one]
  exact ⟨by omega, div_pos (by linarith) hs⟩

/-- `RangeInc.__iter__` over `ℚ`. -/
def RangeIncQ.toList (r : RangeIncQ) : List ℚ :=
  rangeIncFromQ r.stop r.step r.step_pos r.start ++ [r.stop]

/-- `RangeInc.__len__` over floats: `int((stop - start) // step) + 1`,
where float `//` is `⌊·⌋` of the quotient. -/
def RangeIncQ.length (r : RangeIncQ) : ℤ :=
  ⌊(r.stop - r.start) / r.step⌋ + 1

/-! ## Color ranges

Source lines 14-79: `COLOR_BITSHIFTS = [16, 8, 0]` and the three
`ColorRange` subclasses selected by `Mode.color_range`. -/

def COLOR_BITSHIFTS : List ℤ := [16, 8, 0]

/-- `IndividualColorsRange.__iter__`: for each bitshift, for each value,
yield `cur_value << color_bitshift`. -/
def IndividualColorsRange.toList (value_range : List ℤ) : List ℤ :=
  COLOR_BITSHIFTS.bind fun color_bitshift =>
    value_range.map fun cur_value => cur_value <<< color_bitshift

/-- `IndividualColorsRange.__len__` = `len(value_range) * len(COLOR_BITSHIFTS)`. -/
def IndividualColorsRange.len (value_range_len : ℤ) : ℤ :=
  value_range_len * (COLOR_BITSHIFTS.length : ℤ)

/-- `WhiteOnlyRange.__iter__`: yield
`(v << COLOR_BITSHIFTS[0]) | (v << COLOR_BITSHIFTS[1]) | (v << COLOR_BITSHIFTS[2])`. -/
def WhiteOnlyRange.toList (value_range : List ℤ) : List ℤ :=
  value_range.map fun cur_value =>
    Int.lor (Int.lor (cur_value <<< (16 : ℤ)) (cur_value <<< (8 : ℤ))) (cur_value <<< (0 : ℤ))

/-- `WhiteOnlyRange.__len__` = `len(value_range)`. -/
def WhiteOnlyRange.len (value_range_len : ℤ) : ℤ := value_range_len

/-- `FullRainbowRange.__iter__`: triple nested loop over the value range,
red outermost, blue innermost. -/
def FullRainbowRange.toList (value_range : List ℤ) : List ℤ :=
  value_range.bind fun red =>
    value_range.bind fun green =>
      value_range.map fun blue =>
        Int.lor (Int.lor (red <<< (16 : ℤ)) (green <<< (8 : ℤ))) (blue <<< (0 : ℤ))

/-- `FullRainbowRange.__len__` = `pow(len(value_range), 3)`. -/
def FullRainbowRange.len (value_range_len : ℤ) : ℤ := value_range_len ^ 3

/-- `Mode` (source lines 68-79). -/
inductive Mode
  | individual
  | white
  | full
deriving DecidableEq

/-- `Mode.color_range(value_range).__iter__` as a list. -/
def Mode.colorList : Mode → List ℤ → List ℤ
  | .individual, value_range => IndividualColorsRange.toList value_range
  | .white, value_range => WhiteOnlyRange.toList value_range
  | .full, value_range => FullRainbowRange.toList value_range

/-- `len(Mode.color_range(value_range))` in terms of `len(value_range)`. -/
def Mode.colorLen : Mode → ℤ → ℤ
  | .individual, l => IndividualColorsRange.len l
  | .white, l => WhiteOnlyRange.len l
  | .full, l => FullRainbowRange.len l

/-! ## Color unpacking (source lines 113-120) -/

def get_red (rgb_color : ℤ) : ℤ := (Int.land rgb_color 0xFF0000) >>> (16 : ℤ)

def get_green (rgb_color : ℤ) : ℤ := (Int.land rgb_color 0x00FF00) >>> (8 : ℤ)

def get_blue (rgb_color : ℤ) : ℤ := Int.land rgb_color 0x0000FF

/-! ## Collaborators, observations and the event trace -/

/-- Errors: hardware collaborator failures (instrument = power supply,
device = LED strip) and `ValueError` raised by validation. -/
inductive Err
  | instrument (code : ℕ)
  | device (code : ℕ)
  | valueError (msg : String)
deriving DecidableEq

/-- One row written by `csv_writer.writerow([brightness, red, green, blue,
voltage, current])` in `do_measurement`. -/
structure Observation where
  brightness : ℤ
  red : ℤ
  green : ℤ
  blue : ℤ
  voltage : ℚ
  current : ℚ
deriving DecidableEq

/-- Observable side effects of `run`, in program order. -/
inductive Event
  | openFile
  | initStrip
  | openPsu
  | writeHeader
  | commandVoltage (v : ℚ)
  | programStrip (brightness red green blue : ℤ)
  | readVoltage
  | readCurrent
  | writeRow (o : Observation)
  | clearStrip
  | cleanupStrip
deriving DecidableEq

/-- The stubbed hardware collaborators: `psu_channel.voltage = ...`,
`set_strip_color` (sets every pixel then `strip.show()`), and the two
instrument read-backs.  Each call either succeeds or raises. -/
structure Collab where
  setVoltage : ℚ → Except Err Unit
  setStrip : ℤ → ℤ → ℤ → ℤ → Except Err Unit
  readVoltage : Except Err ℚ
  readCurrent : Except Err ℚ

/-- `do_measurement` (source lines 131-148): command voltage when a
setpoint is present, program the strip, wait for the current to settle
(`time.sleep`, no observable effect in the model), read back voltage and
current, compute
`current = psu_channel.output_current * 1000.0 / num_leds - current_offset`,
write the row, and return `(voltage, current)`.
Returns the event trace, the rows written, and the outcome; any
collaborator error aborts the remaining steps and propagates. -/
def do_measurement (c : Collab) (num_leds : ℤ) (current_offset : ℚ)
    (voltage_setpoint : Option ℚ) (brightness red green blue : ℤ) :
    List Event × List Observation × Except Err (ℚ × ℚ) :=
  let voltStep : List Event × Except Err Unit :=
    match voltage_setpoint with
    | some v => ([.commandVoltage v], c.setVoltage v)
    | none => ([], .ok ())
  match voltStep with
  | (ev, .error e) => (ev, [], .error e)
  | (ev, .ok _) =>
    match c.setStrip brightness red green blue with
    | .error e => (ev ++ [.programStrip brightness red green blue], [], .error e)
    | .ok _ =>
      match c.readVoltage with
      | .error e =>
          (ev ++ [.programStrip brightness red green blue, .readVoltage], [], .error e)
      | .ok voltage =>
        match c.readCurrent with
        | .error e =>
            (ev ++ [.programStrip brightness red green blue, .readVoltage, .readCurrent],
             [], .error e)
        | .ok raw_current =>
          let current := raw_current * 1000 / (num_leds : ℚ) - current_offset
          let obs : Observation := ⟨brightness, red, green, blue, voltage, current⟩
          (ev ++ [.programStrip brightness red green blue, .readVoltage, .readCurrent,
                  .writeRow obs],
           [obs], .ok (voltage, current))

/-! ## Progress calculations (source lines 159-165) -/

/-- `progress = i / nb_iterations * 100` (Python `/` is float division). -/
def progressPercent (i nb_iterations : ℤ) : ℚ :=
  (i : ℚ) / (nb_iterations : ℚ) * 100

/-- `time_per_iteration = time_elapsed / i`. -/
def time_per_iteration (time_elapsed : ℚ) (i : ℤ) : ℚ :=
  time_elapsed / (i : ℚ)

/-- `time_remaining = (nb_iterations - i) * time_per_iteration`. -/
def time_remaining (time_elapsed : ℚ) (i nb_iterations : ℤ) : ℚ :=
  ((nb_iterations - i : ℤ) : ℚ) * time_per_iteration time_elapsed i

/-- The per-step values computed for the status display: the divisions of
the progress calculations happen at index `index` with total
`nb_iterations`. -/
structure StepReport where
  index : ℤ
  nb_iterations : ℤ
  progress : ℚ
  remaining : ℚ
deriving DecidableEq

/-- `run_measurement_iteration` (source lines 150-176): unpack the packed
color, run the measurement, then perform the progress calculations and
refresh the display.  `time_elapsed` stands for
`datetime.datetime.now() - start_time` at this step. -/
def run_measurement_iteration (c : Collab) (num_leds : ℤ) (current_offset : ℚ)
    (voltage_setpoint : Option ℚ) (brightness rgb_color : ℤ)
    (i nb_iterations : ℤ) (time_elapsed : ℚ) :
    List Event × List Observation × List StepReport × Except Err Unit :=
  let red := get_red rgb_color
  let green := get_green rgb_color
  let blue := get_blue rgb_color
  match do_measurement c num_leds current_offset voltage_setpoint brightness red green blue with
  | (ev, rows, .error e) => (ev, rows, [], .error e)
  | (ev, rows, .ok _) =>
      (ev, rows,
       [⟨i, nb_iterations, progressPercent i nb_iterations,
         time_remaining time_elapsed i nb_iterations⟩],
       .ok ())

/-! ## The sweep loops (source lines 178-190) -/

/-- The setpoints visited by the triple nested loop
`for voltage: for brightness: for rgb_color:`, in visit order. -/
def sweepSetpoints (voltage_list : List (Option ℚ)) (brightness_list color_list : List ℤ) :
    List (Option ℚ × ℤ × ℤ) :=
  voltage_list.bind fun voltage =>
    brightness_list.bind fun brightness =>
      color_list.map fun rgb_color => (voltage, brightness, rgb_color)

/-- The body of the nested loops: `i += 1` then `run_measurement_iteration`,
aborting the remaining setpoints on the first error (Python's exception
propagation). -/
def run_iterations (c : Collab) (num_leds : ℤ) (current_offset : ℚ)
    (nb_iterations : ℤ) (elapsed : ℤ → ℚ) :
    List (Option ℚ × ℤ × ℤ) → ℤ →
    List Event × List Observation × List StepReport × Except Err Unit
  | [], _ => ([], [], [], .ok ())
  | (voltage, brightness, rgb_color) :: rest, i =>
    let i' := i + 1
    match run_measurement_iteration c num_leds current_offset voltage brightness rgb_color
        i' nb_iterations (elapsed i') with
    | (ev, rows, reports, .error e) => (ev, rows, reports, .error e)
    | (ev, rows, reports, .ok _) =>
      match run_iterations c num_leds current_offset nb_iterations elapsed rest i' with
      | (ev2, rows2, reports2, res) => (ev ++ ev2, rows ++ rows2, reports ++ reports2, res)

/-- The voltage iteration space: `[None]` when no voltage axis is
configured, otherwise the axis's values (source lines 210-213). -/
def voltageList : Option RangeIncQ → List (Option ℚ)
  | none => [none]
  | some r => r.toList.map some

/-- `len(voltage_range)`: `len([None]) == 1`, otherwise `RangeInc.__len__`. -/
def voltageLen : Option RangeIncQ → ℤ
  | none => 1
  | some r => r.length

/-- `nb_iterations = len(voltage_range) * len(brightness_range) * len(color_range)`
(source line 184). -/
def nbIterations (voltage_range : Option RangeIncQ) (brightness_range value_range : RangeInc)
    (mode : Mode) : ℤ :=
  voltageLen voltage_range * brightness_range.length * mode.colorLen value_range.length

/-- `run_measurements` (source lines 178-190): write the header row, then
run the nested sweep loops with `i` starting at 0 and incremented before
each iteration. -/
def run_measurements (c : Collab) (num_leds : ℤ) (current_offset : ℚ)
    (mode : Mode) (brightness_range value_range : RangeInc)
    (voltage_range : Option RangeIncQ) (elapsed : ℤ → ℚ) :
    List Event × List Observation × List StepReport × Except Err Unit :=
  let color_list := mode.colorList value_range.toList
  match run_iterations c num_leds current_offset
      (nbIterations voltage_range brightness_range value_range mode) elapsed
      (sweepSetpoints (voltageList voltage_range) brightness_range.toList color_list) 0 with
  | (ev, rows, reports, res) => (Event.writeHeader :: ev, rows, reports, res)

/-! ## `run` (source lines 192-239) -/

/-- An argparse value for `--min-voltage`/`--max-voltage`: either the
`Default(...)` wrapper (flag absent) or a caller-supplied value.
`float()` of either yields the wrapped value. -/
inductive VoltArg
  | defaulted (value : ℚ)
  | given (value : ℚ)
deriving DecidableEq

/-- `float()` of a voltage argument (`Default.__float__` unwraps). -/
def VoltArg.toRat : VoltArg → ℚ
  | .defaulted v => v
  | .given v => v

/-- The already-parsed command line arguments consumed by `run`. -/
structure Args where
  mode : String
  min_brightness : ℤ
  max_brightness : ℤ
  brightness_step : ℤ
  min_value : ℤ
  max_value : ℤ
  value_step : ℤ
  min_voltage : VoltArg
  max_voltage : VoltArg
  voltage_step : ℚ
  settle_time_ms : ℤ
  current_offset : ℤ
  num_leds : ℤ

/-- Source lines 206-209:
`if isinstance(args.max_voltage, Default): args.max_voltage = args.min_voltage`
`elif isinstance(args.min_voltage, Default): args.min_voltage = args.max_voltage`.
Returns the resolved `(min_voltage, max_voltage)`. -/
def resolveVoltageBounds (min_voltage max_voltage : VoltArg) : VoltArg × VoltArg :=
  match max_voltage with
  | .defaulted _ => (min_voltage, min_voltage)
  | .given mx =>
    match min_voltage with
    | .defaulted _ => (.given mx, .given mx)
    | .given mn => (.given mn, .given mx)

/-- Source lines 210-213: `voltage_range = [None]` when the resolved
min voltage is still a `Default`, otherwise
`RangeInc(float(min_voltage), float(max_voltage), float(voltage_step))`. -/
def mkVoltageRange (min_voltage max_voltage : VoltArg) (voltage_step : ℚ) :
    Except String (Option RangeIncQ) :=
  match min_voltage with
  | .defaulted _ => .ok none
  | .given mn => (mkRangeIncQ mn max_voltage.toRat voltage_step).map some

/-- `VOLTAGE_ABSOLUTE_MAX = 5.5` (source line 14). -/
def VOLTAGE_ABSOLUTE_MAX : ℚ := 11 / 2

/-- The mode-string check of source lines 218-220:
`mode_str.upper()` must name a `Mode` member. -/
def modeOfString (s : String) : Option Mode :=
  if s.toUpper = "INDIVIDUAL" then some .individual
  else if s.toUpper = "WHITE" then some .white
  else if s.toUpper = "FULL" then some .full
  else none

/-- The validated configuration reaching the `with open(...)` block. -/
structure Config where
  mode : Mode
  brightness_range : RangeInc
  value_range : RangeInc
  voltage_range : Option RangeIncQ
  num_leds : ℤ
  settle_time : ℚ
  current_offset : ℤ

/-- The construction-time prefix of `run` (source lines 192-220), in
source order: brightness range, value range, voltage defaulting, voltage
range, absolute-maximum voltage check, mode check.  Every `raise` in this
prefix happens before the output file is opened (line 222) and before any
device or instrument object is created. -/
def validateArgs (args : Args) : Except String Config :=
  match mkRangeInc args.min_brightness args.max_brightness args.brightness_step with
  | .error e => .error e
  | .ok brightness_range =>
  match mkRangeInc args.min_value args.max_value args.value_step with
  | .error e => .error e
  | .ok value_range =>
  let settle_time : ℚ := (args.settle_time_ms : ℚ) / 1000
  match resolveVoltageBounds args.min_voltage args.max_voltage with
  | (min_voltage, max_voltage) =>
  match mkVoltageRange min_voltage max_voltage args.voltage_step with
  | .error e => .error e
  | .ok voltage_range =>
  if max_voltage.toRat > VOLTAGE_ABSOLUTE_MAX then
    .error "Max voltage out of range"
  else
    match modeOfString args.mode with
    | none => .error "Invalid mode specified"
    | some mode =>
      .ok ⟨mode, brightness_range, value_range, voltage_range,
           args.num_leds, settle_time, args.current_offset⟩

/-- The part of `run` after validation (source lines 222-239):
`with open(output_file)` (open the output file), `strip = APA102(...)`
(initialize the device), then
`try: with KoradSerial(...): ... run_measurements(...) finally:
strip.clear_strip(); strip.cleanup()`.
The `finally` block appends the blank/release cleanup events on every
exit path, and the body's outcome — success or the original error — is
returned unchanged. -/
def runValidated (cfg : Config) (c : Collab) (elapsed : ℤ → ℚ) :
    List Event × List Observation × Except Err Unit :=
  match run_measurements c cfg.num_leds (cfg.current_offset : ℚ) cfg.mode
      cfg.brightness_range cfg.value_range cfg.voltage_range elapsed with
  | (ev, rows, _reports, res) =>
    ([.openFile, .initStrip, .openPsu] ++ ev ++ [.clearStrip, .cleanupStrip], rows, res)

/-- `run` (source lines 192-239): the validation prefix, then the
file/hardware part. -/
def run (args : Args) (c : Collab) (elapsed : ℤ → ℚ) :
    List Event × List Observation × Except Err Unit :=
  match validateArgs args with
  | .error e => ([], [], .error (.valueError e))
  | .ok cfg => runValidated cfg c elapsed

/-! ## Test stubs -/

/-- A stub collaborator whose commands succeed and whose instrument
read-backs return the fixed values `V` (volts) and `I` (amps). -/
def stubCollab (V I : ℚ) : Collab :=
  ⟨fun _ => .ok (), fun _ _ _ _ => .ok (), .ok V, .ok I⟩

/-- A stub collaborator whose strip programming always raises a device
error; the read-backs would return `V` and `I`. -/
def failingStripCollab (V I : ℚ) (code : ℕ) : Collab :=
  ⟨fun _ => .ok (), fun _ _ _ _ => .error (.device code), .ok V, .ok I⟩

/-- A stub collaborator whose current read-back raises an instrument
error. -/
def failingCurrentCollab (V : ℚ) (code : ℕ) : Collab :=
  ⟨fun _ => .ok (), fun _ _ _ _ => .ok (), .ok V, .error (.instrument code)⟩

/-!
# Theorems
-/

/-! ## `RangeInc` iteration lemmas -/

theorem rangeIncFrom_eq (stop step : ℤ) (hs : 0 < step) (value : ℤ) :
    rangeIncFrom stop step hs value =
      if value < stop then value :: rangeIncFrom stop step hs (value + step) else [] := by
  rw [rangeIncFrom]
  split <;> rfl

theorem rangeIncFrom_cons (stop step : ℤ) (hs : 0 < step) (value : ℤ) (h : value < stop) :
    rangeIncFrom stop step hs value = value :: rangeIncFrom stop step hs (value + step) := by
  rw [rangeIncFrom_eq, if_pos h]

theorem rangeIncFrom_nil (stop step : ℤ) (hs : 0 < step) (value : ℤ) (h : ¬ value < stop) :
    rangeIncFrom stop step hs value = [] := by
  rw [rangeIncFrom_eq, if_neg h]

/-- Closed form for the number of values yielded by the while loop:
`⌈(stop - value) / step⌉` clipped at zero. -/
theorem rangeIncFrom_length (stop step : ℤ) (hs : 0 < step) (value : ℤ) :
    ((rangeIncFrom stop step hs value).length : ℤ) =
      max 0 ((stop - value + step - 1) / step) := by
  rw [rangeIncFrom_eq]
  split
  case isTrue h =>
    have ih := rangeIncFrom_length stop step hs (value + step)
    have hdiv : (stop - value + step - 1) / step
        = (stop - (value + step) + step - 1) / step + 1 := by
      have := Int.add_mul_ediv_right (stop - (value + step) + step - 1) 1 (ne_of_gt hs)
      rw [one_mul] at this
      rw [← this]
      ring_nf
    have hnonneg : 0 ≤ (stop - (value + step) + step - 1) / step := by
      apply Int.ediv_nonneg _ (le_of_lt hs)
      omega
    simp only [List.length_cons]
    push_cast
    rw [ih, hdiv]
    omega
  case isFalse h =>
    have hle : (stop - value + step - 1) / step ≤ 0 := by
      have hlt : stop - value + step - 1 < step := by omega
      by_cases hpos : 0 ≤ stop - value + step - 1
      · have := Int.ediv_eq_zero_of_lt hpos hlt
        omega
      · have : (stop - value + step - 1) / step ≤ (0 : ℤ) / step :=
          Int.ediv_le_ediv hs (by omega)
        simpa using this
    simp only [List.length_nil]
    omega
termination_by (stop - value).toNat
decreasing_by simp_wf; omega

/-- Every yielded value of the while loop is `≥ value` and `< stop`. -/
theorem rangeIncFrom_mem (stop step : ℤ) (hs : 0 < step) (value : ℤ) :
    ∀ e ∈ rangeIncFrom stop step hs value, value ≤ e ∧ e < stop := by
  rw [rangeIncFrom_eq]
  split
  case isTrue h =>
    intro e he
    rcases List.mem_cons.mp he with rfl | he
    · exact ⟨le_refl _, h⟩
    · have := rangeIncFrom_mem stop step hs (value + step) e he
      omega
  case isFalse h => simp
termination_by (stop - value).toNat
decreasing_by simp_wf; omega

/-- The while loop's output is strictly increasing. -/
theorem rangeIncFrom_chain (stop step : ℤ) (hs : 0 < step) (value : ℤ) :
    (rangeIncFrom stop step hs value).Chain' (· < ·) := by
  rw [rangeIncFrom_eq]
  split
  case isTrue h =>
    apply List.chain'_cons'.mpr
    refine ⟨?_, rangeIncFrom_chain stop step hs (value + step)⟩
    intro b hb
    have hmem := List.mem_of_mem_head? hb
    have := rangeIncFrom_mem stop step hs (value + step) b hmem
    omega
  case isFalse h => simp
termination_by (stop - value).toNat
decreasing_by simp_wf; omega

theorem rangeIncFrom_head (stop step : ℤ) (hs : 0 < step) (value : ℤ) (h : value < stop) :
    (rangeIncFrom stop step hs value).head? = some value := by
  rw [rangeIncFrom_cons stop step hs value h]
  rfl

/-- Concrete evaluation of the while loop for the axis `(0, 10, 3)`. -/
theorem rangeIncFrom_ex_0_10_3 (hs : (0 : ℤ) < 3) :
    rangeIncFrom 10 3 hs 0 = [0, 3, 6, 9] := by
  rw [rangeIncFrom_cons _ _ _ _ (by norm_num)]
  norm_num
  rw [rangeIncFrom_cons _ _ _ _ (by norm_num)]
  norm_num
  rw [rangeIncFrom_cons _ _ _ _ (by norm_num)]
  norm_num
  rw [rangeIncFrom_cons _ _ _ _ (by norm_num)]
  norm_num
  rw [rangeIncFrom_nil _ _ _ _ (by norm_num)]

/-- Concrete evaluation of the while loop for the axis `(0, 255, 255)`. -/
theorem rangeIncFrom_ex_0_255_255 (hs : (0 : ℤ) < 255) :
    rangeIncFrom 255 255 hs 0 = [0] := by
  rw [rangeIncFrom_cons _ _ _ _ (by norm_num)]
  norm_num
  rw [rangeIncFrom_nil _ _ _ _ (by norm_num)]

/-- The singleton case of the `ℚ` while loop: `start = stop` yields nothing. -/
theorem rangeIncFromQ_self (stop step : ℚ) (hs : 0 < step) :
    rangeIncFromQ stop step hs stop = [] := by
  rw [rangeIncFromQ]
  simp

/-- A `RangeInc` over `ℚ` with `start = stop` produces exactly one value. -/
theorem RangeIncQ.toList_self (r : RangeIncQ) (h : r.start = r.stop) :
    r.toList = [r.stop] := by
  rw [RangeIncQ.toList, h, rangeIncFromQ_self]
  rfl

/-- `RangeInc.__len__` is always at least 1. -/
theorem rangeInc_length_pos (r : RangeInc) : 1 ≤ r.length := by
  have h : 0 ≤ (r.stop - r.start) / r.step :=
    Int.ediv_nonneg (by have := r.stop_ge; omega) (le_of_lt r.step_pos)
  rw [RangeInc.length]
  omega

/-- `RangeInc.__len__` over `ℚ` is always at least 1. -/
theorem rangeIncQ_length_pos (r : RangeIncQ) : 1 ≤ r.length := by
  have h : 0 ≤ ⌊(r.stop - r.start) / r.step⌋ := by
    apply Int.floor_nonneg.mpr
    apply div_nonneg _ (le_of_lt r.step_pos)
    have := r.stop_ge
    linarith
  rw [RangeIncQ.length]
  omega

/-- The produced sequence's length in closed form:
`⌈(stop - start) / step⌉ + 1`, written with integer division. -/
theorem rangeInc_toList_length (r : RangeInc) :
    (r.toList.length : ℤ) = (r.stop - r.start + r.step - 1) / r.step + 1 := by
  rw [RangeInc.toList]
  have h := rangeIncFrom_length r.stop r.step r.step_pos r.start
  have hnn : 0 ≤ (r.stop - r.start + r.step - 1) / r.step :=
    Int.ediv_nonneg (by have := r.stop_ge; have := r.step_pos; omega) (le_of_lt r.step_pos)
  simp only [List.length_append, List.length_cons, List.length_nil]
  push_cast
  omega

/-- The produced sequence starts with `start`. -/
theorem RangeInc.toList_head (r : RangeInc) : r.toList.head? = some r.start := by
  rw [RangeInc.toList]
  by_cases h : r.start < r.stop
  · rw [rangeIncFrom_cons _ _ _ _ h]
    rfl
  · have heq : r.start = r.stop := by have := r.stop_ge; omega
    rw [rangeIncFrom_nil _ _ _ _ h]
    simp [heq]

/-- The produced sequence ends with `stop`. -/
theorem RangeInc.toList_getLast (r : RangeInc) : r.toList.getLast? = some r.stop := by
  rw [RangeInc.toList]
  exact List.getLast?_concat _

/-- The produced sequence is strictly increasing. -/
theorem RangeInc.toList_chain (r : RangeInc) : r.toList.Chain' (· < ·) := by
  rw [RangeInc.toList]
  apply List.chain'_append.mpr
  refine ⟨rangeIncFrom_chain _ _ _ _, List.chain'_singleton _, ?_⟩
  intro x hx y hy
  have hxm : x ∈ rangeIncFrom r.stop r.step r.step_pos r.start :=
    List.mem_of_mem_getLast? hx
  have hys : y = r.stop := by
    simp only [List.head?_cons, Option.mem_def, Option.some.injEq] at hy
    exact hy.symm
  have := rangeIncFrom_mem r.stop r.step r.step_pos r.start x hxm
  omega

/-- Concrete production of the axis `(0, 10, 3)`. -/
theorem toList_0_10_3 (h1 : (0 : ℤ) ≤ 10) (h2 : (0 : ℤ) < 3) :
    (RangeInc.mk 0 10 3 h1 h2).toList = [0, 3, 6, 9, 10] := by
  have hdef : (RangeInc.mk 0 10 3 h1 h2).toList = rangeIncFrom 10 3 h2 0 ++ [10] := rfl
  rw [hdef, rangeIncFrom_ex_0_10_3]
  rfl

/-- Concrete production of the axis `(0, 255, 255)`. -/
theorem toList_0_255_255 (h1 : (0 : ℤ) ≤ 255) (h2 : (0 : ℤ) < 255) :
    (RangeInc.mk 0 255 255 h1 h2).toList = [0, 255] := by
  have hdef : (RangeInc.mk 0 255 255 h1 h2).toList
      = rangeIncFrom 255 255 h2 0 ++ [255] := rfl
  rw [hdef, rangeIncFrom_ex_0_255_255]
  rfl

/-- **C1** counterexample.  The claim states the produced sequence has
length `floor((stop-start)/step) + 1`.  For the axis `(0, 10, 3)` the
produced sequence is `[0, 3, 6, 9, 10]` of length 5, while
`floor((10-0)/3) + 1 = 4` (which is what `RangeInc.__len__` returns):
the claimed length formula is false whenever `step` does not divide
`stop - start`. -/
theorem C1_counterexample :
    (RangeInc.mk 0 10 3 (by norm_num) (by norm_num)).toList = [0, 3, 6, 9, 10] ∧
    (RangeInc.mk 0 10 3 (by norm_num) (by norm_num)).toList.length = 5 ∧
    ((10 - 0) / 3 + 1 : ℤ) = 4 ∧
    (RangeInc.mk 0 10 3 (by norm_num) (by norm_num)).length = 4 ∧
    ((RangeInc.mk 0 10 3 (by norm_num) (by norm_num)).toList.length : ℤ)
      ≠ (RangeInc.mk 0 10 3 (by norm_num) (by norm_num)).length := by
  have h := toList_0_10_3 (by norm_num) (by norm_num)
  refine ⟨h, by rw [h]; rfl, by norm_num, by rw [RangeInc.length]; norm_num, ?_⟩
  rw [h, RangeInc.length]
  norm_num

/-- **C1** (amended): for every `RangeInc` constructed with integral
`start ≤ stop` and `step > 0`, the produced sequence has length
`⌈(stop-start)/step⌉ + 1` (equal to `floor((stop-start)/step) + 1` exactly
when `step` divides `stop - start`), its first element is `start`, its
last element is `stop`, and it is strictly increasing. -/
theorem C1_theorem (start stop step : ℤ) (h1 : start ≤ stop) (h2 : 0 < step) :
    ((RangeInc.mk start stop step h1 h2).toList.length : ℤ)
        = (stop - start + step - 1) / step + 1 ∧
    (RangeInc.mk start stop step h1 h2).toList.head? = some start ∧
    (RangeInc.mk start stop step h1 h2).toList.getLast? = some stop ∧
    (RangeInc.mk start stop step h1 h2).toList.Chain' (· < ·) :=
  ⟨rangeInc_toList_length _, RangeInc.toList_head _, RangeInc.toList_getLast _,
   RangeInc.toList_chain _⟩

/-- Witness for `C1_theorem` at the axis `(0, 10, 3)`. -/
theorem C1_witness :
    (0 : ℤ) ≤ 10 ∧ ((0 : ℤ) < 3 ∧
      (((RangeInc.mk 0 10 3 (by norm_num) (by norm_num)).toList.length : ℤ)
          = (10 - 0 + 3 - 1) / 3 + 1 ∧
       (RangeInc.mk 0 10 3 (by norm_num) (by norm_num)).toList.head? = some 0 ∧
       (RangeInc.mk 0 10 3 (by norm_num) (by norm_num)).toList.getLast? = some 10 ∧
       (RangeInc.mk 0 10 3 (by norm_num) (by norm_num)).toList.Chain' (· < ·))) :=
  ⟨by norm_num, by norm_num, C1_theorem 0 10 3 (by norm_num) (by norm_num)⟩

/-! ## Color-sequence lengths -/

/-- Length of a `bind` whose branches all have the same length. -/
theorem length_bind_const {α β : Type} (l : List α) (f : α → List β) (m : ℕ)
    (h : ∀ a ∈ l, (f a).length = m) : (l.bind f).length = l.length * m := by
  induction l with
  | nil => simp
  | cons x xs ih =>
    simp only [List.cons_bind, List.length_append, List.length_cons]
    rw [h x (by simp), ih (fun a ha => h a (by simp [ha]))]
    ring

theorem individualColors_length (l : List ℤ) :
    (IndividualColorsRange.toList l).length = 3 * l.length := by
  rw [IndividualColorsRange.toList,
      length_bind_const _ _ l.length (fun a _ => List.length_map _ _)]
  rw [show COLOR_BITSHIFTS.length = 3 from rfl]

theorem whiteOnly_length (l : List ℤ) :
    (WhiteOnlyRange.toList l).length = l.length := by
  rw [WhiteOnlyRange.toList]
  exact List.length_map _ _

theorem fullRainbow_length (l : List ℤ) :
    (FullRainbowRange.toList l).length = l.length ^ 3 := by
  have hinner : ∀ red ∈ l,
      (l.bind fun green => l.map fun blue =>
        Int.lor (Int.lor (red <<< (16 : ℤ)) (green <<< (8 : ℤ))) (blue <<< (0 : ℤ))).length
        = l.length * l.length := by
    intro red _
    rw [length_bind_const _ _ l.length (fun b _ => List.length_map _ _)]
  rw [FullRainbowRange.toList, length_bind_const _ _ (l.length * l.length) hinner]
  ring

/-! ## `do_measurement` -/

/-- **C3** (confirmed): with stubbed instrument readings (all commands
succeed, the read-backs return `V` volts and `I` amps), the emitted row
carries the commanded brightness, red, green and blue unchanged, the
measured voltage `V`, and current `I * 1000 / num_leds - current_offset`,
i.e. the raw current in mA divided by the pixel count minus the
caller-supplied offset; the same pair is returned. -/
theorem C3_theorem (c : Collab) (num_leds : ℤ) (current_offset : ℚ)
    (voltage_setpoint : Option ℚ) (brightness red green blue : ℤ) (V I : ℚ)
    (hsv : ∀ v, c.setVoltage v = .ok ())
    (hss : c.setStrip brightness red green blue = .ok ())
    (hrv : c.readVoltage = .ok V)
    (hrc : c.readCurrent = .ok I) :
    (do_measurement c num_leds current_offset voltage_setpoint
        brightness red green blue).2.1
      = [⟨brightness, red, green, blue, V, I * 1000 / (num_leds : ℚ) - current_offset⟩] ∧
    (do_measurement c num_leds current_offset voltage_setpoint
        brightness red green blue).2.2
      = .ok (V, I * 1000 / (num_leds : ℚ) - current_offset) := by
  rcases voltage_setpoint with _ | v <;>
    simp [do_measurement, hsv, hss, hrv, hrc]

/-- Witness for `C3_theorem`: 20 pixels, a 0.5 mA offset, setpoint 5 V at
brightness 31 and color (10, 20, 30), stubbed readings 5 V and 0.3 A:
the row carries the commanded values and
`0.3 * 1000 / 20 - 0.5 = 14.5` mA. -/
theorem C3_witness :
    ((∀ v, (stubCollab 5 (3/10)).setVoltage v = .ok ()) ∧
     (stubCollab 5 (3/10)).setStrip 31 10 20 30 = .ok () ∧
     (stubCollab 5 (3/10)).readVoltage = .ok 5 ∧
     (stubCollab 5 (3/10)).readCurrent = .ok (3/10)) ∧
    (do_measurement (stubCollab 5 (3/10)) 20 (1/2) (some 5) 31 10 20 30).2.1
      = [⟨31, 10, 20, 30, 5, (3/10) * 1000 / ((20 : ℤ) : ℚ) - 1/2⟩] ∧
    (do_measurement (stubCollab 5 (3/10)) 20 (1/2) (some 5) 31 10 20 30).2.2
      = .ok (5, (3/10) * 1000 / ((20 : ℤ) : ℚ) - 1/2) :=
  ⟨⟨fun _ => rfl, rfl, rfl, rfl⟩,
   C3_theorem (stubCollab 5 (3/10)) 20 (1/2) (some 5) 31 10 20 30 5 (3/10)
     (fun _ => rfl) rfl rfl rfl⟩

/-- **C9** (confirmed): if any collaborator operation of a measurement
step fails, no row is written for that step; a nonempty row list implies
both read-backs succeeded and the step completed with the computed
current. -/
theorem C9_theorem (c : Collab) (num_leds : ℤ) (current_offset : ℚ)
    (voltage_setpoint : Option ℚ) (brightness red green blue : ℤ) :
    ((do_measurement c num_leds current_offset voltage_setpoint
        brightness red green blue).2.2.isOk = false →
      (do_measurement c num_leds current_offset voltage_setpoint
        brightness red green blue).2.1 = []) ∧
    ((do_measurement c num_leds current_offset voltage_setpoint
        brightness red green blue).2.1 ≠ [] →
      ∃ V I, c.readVoltage = .ok V ∧ c.readCurrent = .ok I ∧
        (do_measurement c num_leds current_offset voltage_setpoint
          brightness red green blue).2.2
          = .ok (V, I * 1000 / (num_leds : ℚ) - current_offset)) := by
  rcases voltage_setpoint with _ | v
  · simp only [do_measurement]
    rcases hs : c.setStrip brightness red green blue with e2 | u2
    all_goals rcases hr : c.readVoltage with e3 | V
    all_goals rcases hc : c.readCurrent with e4 | I
    all_goals simp [hs, hr, hc, Except.isOk, Except.toBool]
  · simp only [do_measurement]
    rcases hv : c.setVoltage v with e | u
    all_goals rcases hs : c.setStrip brightness red green blue with e2 | u2
    all_goals rcases hr : c.readVoltage with e3 | V
    all_goals rcases hc : c.readCurrent with e4 | I
    all_goals simp [hv, hs, hr, hc, Except.isOk, Except.toBool]

/-- Witness for `C9_theorem`: with a failing current read-back no row is
written, and with the all-success stub the read-backs of the nonempty
row's step are recoverable. -/
theorem C9_witness :
    (do_measurement (failingCurrentCollab 5 7) 20 0 none 31 10 20 30).2.1 = [] ∧
    (∃ V I, (stubCollab 5 (3/10)).readVoltage = .ok V ∧
      (stubCollab 5 (3/10)).readCurrent = .ok I ∧
      (do_measurement (stubCollab 5 (3/10)) 20 0 none 31 10 20 30).2.2
        = .ok (V, I * 1000 / ((20 : ℤ) : ℚ) - 0)) :=
  ⟨(C9_theorem (failingCurrentCollab 5 7) 20 0 none 31 10 20 30).1 rfl,
   (C9_theorem (stubCollab 5 (3/10)) 20 0 none 31 10 20 30).2 (by decide)⟩

/-- **C8** (confirmed): for every value axis, the produced color sequence
has length `3 * |value_axis|` in Individual mode, `|value_axis|` in White
mode and `|value_axis|^3` in Full mode, where `|value_axis|` is the length
of the sequence the axis produces; the `__len__` methods return the same
formulas over `len(value_axis)`.  In particular for the axis
`(0, 255, 255)` (which produces `[0, 255]`) the three lengths are 6, 2
and 8. -/
theorem C8_theorem (r : RangeInc) :
    ((Mode.individual.colorList r.toList).length = 3 * r.toList.length ∧
     (Mode.white.colorList r.toList).length = r.toList.length ∧
     (Mode.full.colorList r.toList).length = r.toList.length ^ 3) ∧
    (Mode.individual.colorLen r.length = 3 * r.length ∧
     Mode.white.colorLen r.length = r.length ∧
     Mode.full.colorLen r.length = r.length ^ 3) ∧
    ((Mode.individual.colorList
        (RangeInc.mk 0 255 255 (by norm_num) (by norm_num)).toList).length = 6 ∧
     (Mode.white.colorList
        (RangeInc.mk 0 255 255 (by norm_num) (by norm_num)).toList).length = 2 ∧
     (Mode.full.colorList
        (RangeInc.mk 0 255 255 (by norm_num) (by norm_num)).toList).length = 8) := by
  have hc := toList_0_255_255 (by norm_num) (by norm_num)
  refine ⟨⟨individualColors_length _, whiteOnly_length _,
           fullRainbow_length _⟩,
          ⟨?_, rfl, rfl⟩, ?_, ?_, ?_⟩
  · rw [Mode.colorLen, IndividualColorsRange.len,
        show (COLOR_BITSHIFTS.length : ℤ) = 3 from rfl]
    ring
  · rw [Mode.colorList, hc]
    rfl
  · rw [Mode.colorList, hc]
    rfl
  · rw [Mode.colorList, hc]
    rfl

/-! ## Progress calculations -/

/-- **C5** (confirmed): for every step with `1 ≤ index ≤ total`, the
computed progress values are `percent = index / total * 100` and
`time_remaining = ((now - start_time) / index) * (total - index)` (the
code multiplies the same two factors in the other order); in particular
at `index = total` the progress is exactly 100 and the estimated time
remaining is zero. -/
theorem C5_theorem (i nb_iterations : ℤ) (time_elapsed : ℚ)
    (h1 : 1 ≤ i) (h2 : i ≤ nb_iterations) :
    progressPercent i nb_iterations = (i : ℚ) / (nb_iterations : ℚ) * 100 ∧
    time_remaining time_elapsed i nb_iterations
      = time_elapsed / (i : ℚ) * ((nb_iterations : ℚ) - (i : ℚ)) ∧
    (i = nb_iterations →
      progressPercent i nb_iterations = 100 ∧
      time_remaining time_elapsed i nb_iterations = 0) := by
  refine ⟨rfl, ?_, ?_⟩
  · rw [time_remaining, time_per_iteration]
    push_cast
    ring
  · intro heq
    subst heq
    have hne : ((i : ℚ)) ≠ 0 := by
      have : (0 : ℚ) < (i : ℚ) := by exact_mod_cast (by omega : (0 : ℤ) < i)
      exact ne_of_gt this
    constructor
    · rw [progressPercent, div_self hne]
      norm_num
    · rw [time_remaining]
      push_cast
      ring

/-- Witness for `C5_theorem` at `index = total = 4` with 2 time units
elapsed. -/
theorem C5_witness :
    (1 : ℤ) ≤ 4 ∧ ((4 : ℤ) ≤ 4 ∧
      (progressPercent 4 4 = ((4 : ℤ) : ℚ) / ((4 : ℤ) : ℚ) * 100 ∧
       time_remaining 2 4 4 = 2 / ((4 : ℤ) : ℚ) * (((4 : ℤ) : ℚ) - ((4 : ℤ) : ℚ)) ∧
       ((4 : ℤ) = 4 → progressPercent 4 4 = 100 ∧ time_remaining 2 4 4 = 0))) :=
  ⟨by norm_num, by norm_num, C5_theorem 4 4 2 (by norm_num) (by norm_num)⟩

/-! ## The sweep enumeration -/

/-- Indexing a `bind` whose branches all have the same length `m`:
position `i * m + k` lands in branch `i` at offset `k`. -/
theorem getElem?_bind_const {α β : Type} (f : α → List β) (m : ℕ)
    (hf : ∀ a, (f a).length = m) :
    ∀ (l : List α) (i k : ℕ), k < m →
      (l.bind f)[i * m + k]? = l[i]?.bind fun a => (f a)[k]? := by
  intro l
  induction l with
  | nil => intro i k _; simp
  | cons x xs ih =>
    intro i k hk
    simp only [List.cons_bind]
    cases i with
    | zero =>
      simp only [Nat.zero_mul, Nat.zero_add]
      rw [List.getElem?_append_left (by rw [hf]; exact hk)]
      simp
    | succ i' =>
      have hmul : (i' + 1) * m = i' * m + m := by ring
      have hge : (f x).length ≤ (i' + 1) * m + k := by
        rw [hf, hmul]
        omega
      rw [List.getElem?_append_right hge]
      have harith : (i' + 1) * m + k - (f x).length = i' * m + k := by
        rw [hf, hmul]
        omega
      rw [harith, ih i' k hk]
      simp

/-- The per-voltage slice of the sweep has length
`brights.length * colors.length`. -/
theorem sweep_inner_length (brights colors : List ℤ) (v : Option ℚ) :
    (brights.bind fun brightness =>
      colors.map fun rgb_color => (v, brightness, rgb_color)).length
      = brights.length * colors.length :=
  length_bind_const _ _ colors.length (fun _ _ => List.length_map _ _)

/-- **C2** counterexample.  The claim identifies the number of visited
setpoints with `total_count = len(voltage) * len(brightness) * len(colors)`
(`nb_iterations` in the code, computed from the `__len__` methods).  With
no voltage axis, brightness axis `(0, 10, 3)` and White mode over the
value axis `(0, 255, 255)`, the nested loops visit
`1 * 5 * 2 = 10` setpoints while `total_count = 1 * 4 * 2 = 8`. -/
theorem C2_counterexample :
    (sweepSetpoints (voltageList none)
        (RangeInc.mk 0 10 3 (by norm_num) (by norm_num)).toList
        (Mode.white.colorList
          (RangeInc.mk 0 255 255 (by norm_num) (by norm_num)).toList)).length = 10 ∧
    nbIterations none (RangeInc.mk 0 10 3 (by norm_num) (by norm_num))
        (RangeInc.mk 0 255 255 (by norm_num) (by norm_num)) Mode.white = 8 ∧
    (10 : ℕ) ≠ 8 := by
  refine ⟨?_, ?_, by norm_num⟩
  · rw [sweepSetpoints,
        length_bind_const _ _
          ((RangeInc.mk 0 10 3 (by norm_num) (by norm_num)).toList.length *
           (Mode.white.colorList
             (RangeInc.mk 0 255 255 (by norm_num) (by norm_num)).toList).length)
          (fun v _ => sweep_inner_length _ _ v),
        toList_0_10_3, Mode.colorList, toList_0_255_255]
    rfl
  · rw [nbIterations, voltageLen, RangeInc.length, Mode.colorLen, WhiteOnlyRange.len,
        RangeInc.length]
    norm_num

/-- **C2** (amended): the nested loops visit exactly
`|voltage sequence| * |brightness sequence| * |color sequence|` setpoints
(the *produced* sequence lengths; this equals the code's
`total_count`/`nb_iterations` — the product of the `__len__` values —
exactly when each axis's step divides its span, but not in general), and
the traversal order nests voltage outermost, then brightness, then color
innermost: the setpoint at flat position `(i * |brights| + j) * |colors| + k`
is `(voltage i, brightness j, color k)`. -/
theorem C2_theorem (volts : List (Option ℚ)) (brights colors : List ℤ) :
    (sweepSetpoints volts brights colors).length
      = volts.length * brights.length * colors.length ∧
    ∀ (i j k : ℕ) (hi : i < volts.length) (hj : j < brights.length)
        (hk : k < colors.length),
      (sweepSetpoints volts brights colors)[(i * brights.length + j) * colors.length + k]?
        = some (volts[i], brights[j], colors[k]) := by
  constructor
  · rw [sweepSetpoints,
        length_bind_const _ _ (brights.length * colors.length)
          (fun v _ => sweep_inner_length _ _ v)]
    ring
  · intro i j k hi hj hk
    have hidx : (i * brights.length + j) * colors.length + k
        = i * (brights.length * colors.length) + (j * colors.length + k) := by ring
    have hjk : j * colors.length + k < brights.length * colors.length := by
      have h1 : j * colors.length + k < (j + 1) * colors.length := by
        have : (j + 1) * colors.length = j * colors.length + colors.length := by ring
        omega
      have h2 : (j + 1) * colors.length ≤ brights.length * colors.length :=
        Nat.mul_le_mul_right _ (by omega)
      omega
    rw [sweepSetpoints, hidx,
        getElem?_bind_const _ (brights.length * colors.length)
          (fun v => sweep_inner_length brights colors v) volts i _ hjk,
        List.getElem?_eq_getElem hi]
    simp only [Option.some_bind]
    rw [getElem?_bind_const _ colors.length (fun b => List.length_map _ _) brights j k hk,
        List.getElem?_eq_getElem hj]
    simp only [Option.some_bind]
    rw [List.getElem?_map, List.getElem?_eq_getElem hk]
    rfl

/-- Witness for `C2_theorem`: two voltages, two brightness values, two
colors; position `(1 * 2 + 0) * 2 + 1 = 5` holds the sixth setpoint
`(second voltage, first brightness, second color)`. -/
theorem C2_witness :
    (sweepSetpoints [some 1, some 2] [3, 4] [5, 6]).length = 8 ∧
    (sweepSetpoints [some 1, some 2] [3, 4] [5, 6])[(1 * 2 + 0) * 2 + 1]?
      = some (some 2, 3, 6) := by
  constructor
  · rw [(C2_theorem [some 1, some 2] [3, 4] [5, 6]).1]
    rfl
  · have h := (C2_theorem [some 1, some 2] [3, 4] [5, 6]).2 1 0 1
      (by norm_num) (by norm_num) (by norm_num)
    simpa using h

/-! ## Progress divisors in the traversal -/

/-- Every progress report of one iteration carries exactly the passed
index and total. -/
theorem run_measurement_iteration_reports (c : Collab) (num_leds : ℤ)
    (current_offset : ℚ) (voltage_setpoint : Option ℚ) (brightness rgb_color : ℤ)
    (i nb_iterations : ℤ) (time_elapsed : ℚ) :
    ∀ rep ∈ (run_measurement_iteration c num_leds current_offset voltage_setpoint
        brightness rgb_color i nb_iterations time_elapsed).2.2.1,
      rep.index = i ∧ rep.nb_iterations = nb_iterations := by
  intro rep hrep
  rw [run_measurement_iteration] at hrep
  rcases hdm : do_measurement c num_leds current_offset voltage_setpoint brightness
      (get_red rgb_color) (get_green rgb_color) (get_blue rgb_color) with ⟨ev, rows, res⟩
  rw [hdm] at hrep
  rcases res with e | pair
  · simp at hrep
  · simp only [List.mem_singleton] at hrep
    subst hrep
    exact ⟨rfl, rfl⟩

/-- Every progress report of the sweep loop, started at counter `i0`, has
an index greater than `i0` and carries the loop's `nb_iterations`. -/
theorem run_iterations_reports (c : Collab) (num_leds : ℤ) (current_offset : ℚ)
    (nb_iterations : ℤ) (elapsed : ℤ → ℚ) :
    ∀ (sps : List (Option ℚ × ℤ × ℤ)) (i0 : ℤ),
      ∀ rep ∈ (run_iterations c num_leds current_offset nb_iterations elapsed sps i0).2.2.1,
        i0 + 1 ≤ rep.index ∧ rep.nb_iterations = nb_iterations := by
  intro sps
  induction sps with
  | nil => intro i0 rep hrep; simp [run_iterations] at hrep
  | cons sp rest ih =>
    rcases sp with ⟨v, b, rgb⟩
    intro i0 rep hrep
    rw [run_iterations] at hrep
    rcases hit : run_measurement_iteration c num_leds current_offset v b rgb (i0 + 1)
        nb_iterations (elapsed (i0 + 1)) with ⟨ev, rows, reports, res⟩
    rw [hit] at hrep
    rcases res with e | u
    · simp only at hrep
      have := run_measurement_iteration_reports c num_leds current_offset v b rgb
        (i0 + 1) nb_iterations (elapsed (i0 + 1)) rep (by rw [hit]; exact hrep)
      omega
    · rcases hrest : run_iterations c num_leds current_offset nb_iterations elapsed
          rest (i0 + 1) with ⟨ev2, rows2, reports2, res2⟩
      rw [hrest] at hrep
      simp only [List.mem_append] at hrep
      rcases hrep with hrep | hrep
      · have := run_measurement_iteration_reports c num_leds current_offset v b rgb
          (i0 + 1) nb_iterations (elapsed (i0 + 1)) rep (by rw [hit]; exact hrep)
        omega
      · have := ih (i0 + 1) rep (by rw [hrest]; exact hrep)
        omega

/-- `nb_iterations` is at least 1 for validly constructed axes. -/
theorem nbIterations_pos (voltage_range : Option RangeIncQ)
    (brightness_range value_range : RangeInc) (mode : Mode) :
    1 ≤ nbIterations voltage_range brightness_range value_range mode := by
  have h1 : 1 ≤ voltageLen voltage_range := by
    cases voltage_range with
    | none => exact le_refl 1
    | some r => exact rangeIncQ_length_pos r
  have h2 := rangeInc_length_pos brightness_range
  have h3 : 1 ≤ mode.colorLen value_range.length := by
    have hv := rangeInc_length_pos value_range
    cases mode with
    | individual =>
      rw [Mode.colorLen, IndividualColorsRange.len,
          show (COLOR_BITSHIFTS.length : ℤ) = 3 from rfl]
      nlinarith
    | white => exact hv
    | full =>
      rw [Mode.colorLen, FullRainbowRange.len]
      calc (1 : ℤ) = 1 ^ 3 := by ring
        _ ≤ value_range.length ^ 3 := pow_le_pow_left (by norm_num) hv 3
  have h12 : 1 ≤ voltageLen voltage_range * brightness_range.length :=
    calc (1 : ℤ) = 1 * 1 := by ring
      _ ≤ voltageLen voltage_range * brightness_range.length :=
          mul_le_mul h1 h2 (by norm_num) (by linarith)
  rw [nbIterations]
  calc (1 : ℤ) = 1 * 1 := by ring
    _ ≤ voltageLen voltage_range * brightness_range.length
          * mode.colorLen value_range.length :=
        mul_le_mul h12 h3 (by norm_num) (by linarith)

/-- **C7** (confirmed): in the traversal, every progress computation
happens at an index of at least 1 (the counter is incremented before each
`run_measurement_iteration` call) and with the per-sweep total
`nb_iterations`, which is at least 1 for valid axes — so both divisors of
the progress calculations are nonzero, and the index-zero case is
unreachable. -/
theorem C7_theorem (c : Collab) (num_leds : ℤ) (current_offset : ℚ) (mode : Mode)
    (brightness_range value_range : RangeInc) (voltage_range : Option RangeIncQ)
    (elapsed : ℤ → ℚ) :
    1 ≤ nbIterations voltage_range brightness_range value_range mode ∧
    List.Forall
      (fun rep => 1 ≤ rep.index ∧
        rep.nb_iterations = nbIterations voltage_range brightness_range value_range mode)
      (run_measurements c num_leds current_offset mode brightness_range value_range
        voltage_range elapsed).2.2.1 := by
  refine ⟨nbIterations_pos _ _ _ _, ?_⟩
  rw [List.forall_iff_forall_mem]
  intro rep hrep
  rw [run_measurements] at hrep
  rcases hri : run_iterations c num_leds current_offset
      (nbIterations voltage_range brightness_range value_range mode) elapsed
      (sweepSetpoints (voltageList voltage_range) brightness_range.toList
        (mode.colorList value_range.toList)) 0 with ⟨ev, rows, reports, res⟩
  rw [hri] at hrep
  have := run_iterations_reports c num_leds current_offset
    (nbIterations voltage_range brightness_range value_range mode) elapsed
    (sweepSetpoints (voltageList voltage_range) brightness_range.toList
      (mode.colorList value_range.toList)) 0 rep (by rw [hri]; exact hrep)
  omega

/-! ## Cleanup on every exit path -/

/-- `do_measurement` never emits the blank/release cleanup events. -/
theorem do_measurement_no_cleanup (c : Collab) (num_leds : ℤ) (current_offset : ℚ)
    (voltage_setpoint : Option ℚ) (brightness red green blue : ℤ) :
    Event.clearStrip ∉ (do_measurement c num_leds current_offset voltage_setpoint
        brightness red green blue).1 ∧
    Event.cleanupStrip ∉ (do_measurement c num_leds current_offset voltage_setpoint
        brightness red green blue).1 := by
  rcases voltage_setpoint with _ | v
  · simp only [do_measurement]
    rcases hs : c.setStrip brightness red green blue with e2 | u2
    all_goals rcases hr : c.readVoltage with e3 | V
    all_goals rcases hc : c.readCurrent with e4 | I
    all_goals simp
  · simp only [do_measurement]
    rcases hv : c.setVoltage v with e | u
    all_goals rcases hs : c.setStrip brightness red green blue with e2 | u2
    all_goals rcases hr : c.readVoltage with e3 | V
    all_goals rcases hc : c.readCurrent with e4 | I
    all_goals simp

/-- `run_measurement_iteration` never emits the cleanup events. -/
theorem run_measurement_iteration_no_cleanup (c : Collab) (num_leds : ℤ)
    (current_offset : ℚ) (voltage_setpoint : Option ℚ) (brightness rgb_color : ℤ)
    (i nb_iterations : ℤ) (time_elapsed : ℚ) :
    Event.clearStrip ∉ (run_measurement_iteration c num_leds current_offset
        voltage_setpoint brightness rgb_color i nb_iterations time_elapsed).1 ∧
    Event.cleanupStrip ∉ (run_measurement_iteration c num_leds current_offset
        voltage_setpoint brightness rgb_color i nb_iterations time_elapsed).1 := by
  rw [run_measurement_iteration]
  have h := do_measurement_no_cleanup c num_leds current_offset voltage_setpoint
    brightness (get_red rgb_color) (get_green rgb_color) (get_blue rgb_color)
  rcases hdm : do_measurement c num_leds current_offset voltage_setpoint brightness
      (get_red rgb_color) (get_green rgb_color) (get_blue rgb_color) with ⟨ev, rows, res⟩
  rw [hdm] at h
  rcases res with e | u
  · exact h
  · exact h

/-- The sweep loop never emits the cleanup events. -/
theorem run_iterations_no_cleanup (c : Collab) (num_leds : ℤ) (current_offset : ℚ)
    (nb_iterations : ℤ) (elapsed : ℤ → ℚ) :
    ∀ (sps : List (Option ℚ × ℤ × ℤ)) (i0 : ℤ),
      Event.clearStrip ∉ (run_iterations c num_leds current_offset nb_iterations
          elapsed sps i0).1 ∧
      Event.cleanupStrip ∉ (run_iterations c num_leds current_offset nb_iterations
          elapsed sps i0).1 := by
  intro sps
  induction sps with
  | nil => intro i0; simp [run_iterations]
  | cons sp rest ih =>
    rcases sp with ⟨v, b, rgb⟩
    intro i0
    rw [run_iterations]
    have hit' := run_measurement_iteration_no_cleanup c num_leds current_offset v b rgb
      (i0 + 1) nb_iterations (elapsed (i0 + 1))
    rcases hit : run_measurement_iteration c num_leds current_offset v b rgb (i0 + 1)
        nb_iterations (elapsed (i0 + 1)) with ⟨ev, rows, reports, res⟩
    rw [hit] at hit'
    rcases res with e | u
    · exact hit'
    · have hrest' := ih (i0 + 1)
      rcases hrest : run_iterations c num_leds current_offset nb_iterations elapsed
          rest (i0 + 1) with ⟨ev2, rows2, reports2, res2⟩
      rw [hrest] at hrest'
      simp only [List.mem_append]
      constructor
      · intro hmem
        rcases hmem with hmem | hmem
        · exact hit'.1 hmem
        · exact hrest'.1 hmem
      · intro hmem
        rcases hmem with hmem | hmem
        · exact hit'.2 hmem
        · exact hrest'.2 hmem

/-- `run_measurements` never emits the cleanup events. -/
theorem run_measurements_no_cleanup (c : Collab) (num_leds : ℤ) (current_offset : ℚ)
    (mode : Mode) (brightness_range value_range : RangeInc)
    (voltage_range : Option RangeIncQ) (elapsed : ℤ → ℚ) :
    Event.clearStrip ∉ (run_measurements c num_leds current_offset mode
        brightness_range value_range voltage_range elapsed).1 ∧
    Event.cleanupStrip ∉ (run_measurements c num_leds current_offset mode
        brightness_range value_range voltage_range elapsed).1 := by
  rw [run_measurements]
  have h := run_iterations_no_cleanup c num_leds current_offset
    (nbIterations voltage_range brightness_range value_range mode) elapsed
    (sweepSetpoints (voltageList voltage_range) brightness_range.toList
      (mode.colorList value_range.toList)) 0
  rcases hri : run_iterations c num_leds current_offset
      (nbIterations voltage_range brightness_range value_range mode) elapsed
      (sweepSetpoints (voltageList voltage_range) brightness_range.toList
        (mode.colorList value_range.toList)) 0 with ⟨ev, rows, reports, res⟩
  rw [hri] at h
  simp only [List.mem_cons]
  constructor
  · intro hmem
    rcases hmem with hmem | hmem
    · exact Event.noConfusion hmem
    · exact h.1 hmem
  · intro hmem
    rcases hmem with hmem | hmem
    · exact Event.noConfusion hmem
    · exact h.2 hmem

/-- **C4** (confirmed): on every exit path of the hardware section of
`run` — successful completion of the sweep or a collaborator error raised
mid-sweep — the device blank/release cleanup (`strip.clear_strip()` then
`strip.cleanup()`, the `finally` block) is invoked exactly once, as the
final events before control returns, and the sweep body's outcome (the
original error, or success) is returned to the caller unmodified. -/
theorem C4_theorem (cfg : Config) (c : Collab) (elapsed : ℤ → ℚ) :
    (runValidated cfg c elapsed).1.count Event.clearStrip = 1 ∧
    (runValidated cfg c elapsed).1.count Event.cleanupStrip = 1 ∧
    [Event.clearStrip, Event.cleanupStrip] <:+ (runValidated cfg c elapsed).1 ∧
    (runValidated cfg c elapsed).2.2
      = (run_measurements c cfg.num_leds (cfg.current_offset : ℚ) cfg.mode
          cfg.brightness_range cfg.value_range cfg.voltage_range elapsed).2.2.2 := by
  rw [runValidated]
  have h := run_measurements_no_cleanup c cfg.num_leds (cfg.current_offset : ℚ) cfg.mode
    cfg.brightness_range cfg.value_range cfg.voltage_range
  rcases hrm : run_measurements c cfg.num_leds (cfg.current_offset : ℚ) cfg.mode
      cfg.brightness_range cfg.value_range cfg.voltage_range elapsed
    with ⟨ev, rows, reports, res⟩
  have h' := h elapsed
  rw [hrm] at h'
  refine ⟨?_, ?_, ⟨[Event.openFile, Event.initStrip, Event.openPsu] ++ ev, by simp⟩, rfl⟩
  · simp only [List.count_append]
    rw [List.count_eq_zero.mpr h'.1]
    simp
  · simp only [List.count_append]
    rw [List.count_eq_zero.mpr h'.2]
    simp

/-! ## Fail-fast validation -/

/-- **C6** (confirmed): whenever the construction-time prefix of `run`
(source lines 192-220: brightness/value/voltage range construction, the
absolute-maximum voltage check, and the sweep-mode check) raises, `run`
returns with an empty event trace — in particular the output file is
never opened or created (`open` is line 222) and no device or instrument
I/O occurs — and the `ValueError` is propagated. -/
theorem C6_theorem (args : Args) (c : Collab) (elapsed : ℤ → ℚ) (e : String)
    (h : validateArgs args = .error e) :
    run args c elapsed = ([], [], .error (.valueError e)) := by
  rw [run, h]

/-- Witness for `C6_theorem`: an inverted brightness range
(`min_brightness = 31 > 0 = max_brightness`) fails validation and `run`
performs no side effect at all. -/
theorem C6_witness :
    validateArgs
        (Args.mk "individual" 31 0 1 0 255 1 (.defaulted 5) (.defaulted 5) (1/4) 100 0 20)
      = .error "Invalid range: stop must be greater than or equal to start" ∧
    run (Args.mk "individual" 31 0 1 0 255 1 (.defaulted 5) (.defaulted 5) (1/4) 100 0 20)
        (stubCollab 5 (3/10)) (fun _ => 0)
      = ([], [],
         .error (.valueError "Invalid range: stop must be greater than or equal to start")) :=
  ⟨rfl,
   C6_theorem (Args.mk "individual" 31 0 1 0 255 1 (.defaulted 5) (.defaulted 5) (1/4) 100 0 20)
     (stubCollab 5 (3/10)) (fun _ => 0)
     "Invalid range: stop must be greater than or equal to start" rfl⟩

/-! ## Voltage bound defaulting -/

/-- **C10** (confirmed): when exactly one of the two voltage bounds is
caller-supplied, the defaulting of source lines 206-209 copies the
supplied bound onto the missing one and the voltage axis produces exactly
that single voltage; when neither is supplied the voltage axis is absent
(`[None]`), in which case every measurement runs with voltage setpoint
`None` and `do_measurement` never commands a voltage to the instrument. -/
theorem C10_theorem (mn mx d1 d2 : ℚ) (voltage_step : ℚ) (hstep : 0 < voltage_step) :
    (∃ r : RangeIncQ,
      mkVoltageRange (resolveVoltageBounds (.defaulted d1) (.given mx)).1
          (resolveVoltageBounds (.defaulted d1) (.given mx)).2 voltage_step
        = .ok (some r) ∧
      r.toList = [mx] ∧ voltageList (some r) = [some mx]) ∧
    (∃ r : RangeIncQ,
      mkVoltageRange (resolveVoltageBounds (.given mn) (.defaulted d2)).1
          (resolveVoltageBounds (.given mn) (.defaulted d2)).2 voltage_step
        = .ok (some r) ∧
      r.toList = [mn] ∧ voltageList (some r) = [some mn]) ∧
    (mkVoltageRange (resolveVoltageBounds (.defaulted d1) (.defaulted d2)).1
        (resolveVoltageBounds (.defaulted d1) (.defaulted d2)).2 voltage_step
      = .ok none ∧
     voltageList none = [none]) ∧
    (∀ (c : Collab) (num_leds : ℤ) (current_offset : ℚ)
        (brightness red green blue : ℤ) (v : ℚ),
      Event.commandVoltage v ∉ (do_measurement c num_leds current_offset none
        brightness red green blue).1) := by
  have hmk : ∀ v : ℚ, mkRangeIncQ v v voltage_step
      = .ok ⟨v, v, voltage_step, le_refl v, hstep⟩ := by
    intro v
    rw [mkRangeIncQ, dif_neg (lt_irrefl v), dif_neg (not_le.mpr hstep)]
  refine ⟨⟨⟨mx, mx, voltage_step, le_refl mx, hstep⟩, ?_, ?_, ?_⟩,
          ⟨⟨mn, mn, voltage_step, le_refl mn, hstep⟩, ?_, ?_, ?_⟩, ⟨rfl, rfl⟩, ?_⟩
  · show (mkRangeIncQ mx mx voltage_step).map some = _
    rw [hmk]
    rfl
  · exact RangeIncQ.toList_self _ rfl
  · show (RangeIncQ.mk mx mx voltage_step (le_refl mx) hstep).toList.map some = _
    rw [RangeIncQ.toList_self _ rfl]
    rfl
  · show (mkRangeIncQ mn mn voltage_step).map some = _
    rw [hmk]
    rfl
  · exact RangeIncQ.toList_self _ rfl
  · show (RangeIncQ.mk mn mn voltage_step (le_refl mn) hstep).toList.map some = _
    rw [RangeIncQ.toList_self _ rfl]
    rfl
  · intro c num_leds current_offset brightness red green blue v
    simp only [do_measurement]
    rcases hs : c.setStrip brightness red green blue with e2 | u2
    all_goals rcases hr : c.readVoltage with e3 | V
    all_goals rcases hc : c.readCurrent with e4 | I
    all_goals simp

/-- Witness for `C10_theorem`: bounds 4.5 V and 5 V, step 0.25 V. -/
theorem C10_witness :
    (0 : ℚ) < 1/4 ∧
    ((∃ r : RangeIncQ,
      mkVoltageRange (resolveVoltageBounds (.defaulted 5) (.given 5)).1
          (resolveVoltageBounds (.defaulted 5) (.given 5)).2 (1/4)
        = .ok (some r) ∧
      r.toList = [5] ∧ voltageList (some r) = [some 5]) ∧
    (∃ r : RangeIncQ,
      mkVoltageRange (resolveVoltageBounds (.given (45/10)) (.defaulted 5)).1
          (resolveVoltageBounds (.given (45/10)) (.defaulted 5)).2 (1/4)
        = .ok (some r) ∧
      r.toList = [45/10] ∧ voltageList (some r) = [some (45/10)]) ∧
    (mkVoltageRange (resolveVoltageBounds (.defaulted 5) (.defaulted 5)).1
        (resolveVoltageBounds (.defaulted 5) (.defaulted 5)).2 (1/4)
      = .ok none ∧
     voltageList none = [none]) ∧
    (∀ (c : Collab) (num_leds : ℤ) (current_offset : ℚ)
        (brightness red green blue : ℤ) (v : ℚ),
      Event.commandVoltage v ∉ (do_measurement c num_leds current_offset none
        brightness red green blue).1)) :=
  ⟨by norm_num, C10_theorem (45/10) 5 5 5 (1/4) (by norm_num)⟩

end Measure
